import Mathlib

/-!
Verification of the VRChatPython client library (vrcpy).

The development shallowly embeds the parts of the source that the checked
properties are about:

* `objects.py` / `Location.__init__` — the compact location-string grammar
  (`locationParse` below, working on Python-style character lists);
* `objects.py` / `BaseObject._assign` and `BaseObject._objectIntegrity` —
  the schema-binding gate that rejects reserved keys (`assignRun`);
* `wss.py` / `WSSClient._update_friend` and the `_ws_friend_*` handlers —
  the friend-roster reconciliation (`update_friend`, `applyEvents`);
* `wss.py` / `WSSClient._ws_close` and `WSSClient.disconnect` — the
  push-channel close/reconnect policy (`ws_close`, `disconnect`);
* the exception-name mismatch between `wss.py` (imports and catches
  `IntegretyError`) and `errors.py` (defines only `IntegrityError`);
* the object-identity state comparison `newUser.state is State.Offline`
  of wss.py line 122, modelled identity-aware by `applyNewIs` and
  `update_friend_is` (JSON-materialized strings are never the interned
  constant, so the offline branch is unreachable on the wire data path).

Python strings are modelled as `List Char` so that every operation the
source performs (split, count, membership, slicing) is a structurally
recursive, kernel-computable function.
-/

/-- Python strings, modelled as their character lists. -/
abbrev Str : Type := List Char

/-- Python `s.split(sep)` for a single-character separator: splits on every
occurrence, keeping empty pieces; the empty string yields one empty piece. -/
def pySplit (sep : Char) : Str → List Str
  | [] => [[]]
  | c :: rest =>
    let r := pySplit sep rest
    if c = sep then [] :: r
    else
      match r with
      | [] => [[c]]
      | h :: t => (c :: h) :: t

/-- Python `s.count(sep)` for a single-character separator. -/
def pyCount (sep : Char) : Str → Nat
  | [] => 0
  | c :: rest => (if c = sep then 1 else 0) + pyCount sep rest

/-- Error raised while parsing a location string.  `valueError` models a bare
Python `ValueError` escaping from the tuple unpack performed outside the
`try` block (objects.py line 417); `generalError` models the
`vrcpy.errors.GeneralError` re-raised by the handler at line 431. -/
inductive LocError where
  | valueError : LocError
  | generalError : Str → LocError
deriving DecidableEq

/-- The fields of `objects.Location` that `__init__` assigns. -/
structure Loc where
  worldId : Option Str
  name : Str
  type : Str
  userId : Option Str
  nonce : Option Str
  location : Str
  code : Str
deriving DecidableEq

/-- The message of the `GeneralError` raised by `Location.__init__`
(objects.py line 431); it embeds the code part of the location string. -/
def genErrMsg (code : Str) : Str :=
  "Exception occured while trying to parse location string (".toList ++ code
    ++ ")! Please open an issue on github!".toList

/-- The body of `Location.__init__` after the optional `worldId` split
(objects.py lines 418-431).  `loc` is the code part, `location` the full
raw string.  Mirrors the Python control flow: two `~` separators select the
three-segment shape (failures of the inner unpacks/index raise and are
re-wrapped as `GeneralError`), one selects the two-segment shape, any other
count leaves the constructor defaults (`name = ''`, `type = 'public'`). -/
def locationParseCode (location : Str) (worldId : Option Str) (loc : Str) :
    Except LocError Loc :=
  if '~' ∈ loc then
    if pyCount '~' loc = 2 then
      match pySplit '~' loc with
      | [n, t, nn] =>
        match pySplit '(' t.dropLast with
        | [ty, uid] =>
          match pySplit '(' nn with
          | _ :: second :: _ =>
            .ok { worldId := worldId, name := n, type := ty, userId := some uid,
                  nonce := some second.dropLast, location := location, code := loc }
          | _ => .error (.generalError (genErrMsg loc))
        | _ => .error (.generalError (genErrMsg loc))
      | _ => .error (.generalError (genErrMsg loc))
    else if pyCount '~' loc = 1 then
      match pySplit '~' loc with
      | [n, t] =>
        .ok { worldId := worldId, name := n, type := t, userId := none,
              nonce := none, location := location, code := loc }
      | _ => .error (.generalError (genErrMsg loc))
    else
      .ok { worldId := worldId, name := [], type := "public".toList, userId := none,
            nonce := none, location := location, code := loc }
  else
    .ok { worldId := worldId, name := loc, type := "public".toList, userId := none,
          nonce := none, location := location, code := loc }

/-- `objects.Location.__init__` (objects.py lines 398-431): an optional
`worldId:` prefix is split off first (a string with more than one `:`
makes the two-variable unpack raise `ValueError`), then the code part is
parsed by `locationParseCode`. -/
def locationParse (location : Str) : Except LocError Loc :=
  if ':' ∈ location then
    match pySplit ':' location with
    | [w, rest] => locationParseCode location (some w) rest
    | _ => .error .valueError
  else locationParseCode location none location

/-- The state string `types.State.Offline` (types.py line 17). -/
def stateOffline : Str := "offline".toList

/-- The state string `types.State.Online` (types.py line 15). -/
def stateOnline : Str := "online".toList

/-- A friend record, restricted to the two fields `_update_friend` reads:
the user id and the presence `state` (`objects.User`).  Two records with
the same id but different field values model distinct copies of a user. -/
structure MUser where
  id : Str
  state : Str
deriving DecidableEq

/-- The friend lists held on `objects.CurrentUser` (objects.py lines
188-191) that `wss.py` mutates. -/
structure Roster where
  online : List MUser
  active : List MUser
  offline : List MUser
  friends : List MUser
deriving DecidableEq

/-- The ids of a friend list. -/
def ids (l : List MUser) : List Str := l.map MUser.id

/-- The `for user in list: if user.id == id: remove(user); break` pattern of
`_update_friend` (wss.py lines 108-119): returns the first record whose id
matches together with the list with that record removed (the list is
returned unchanged when there is no match). -/
def removeFirstById (id : Str) : List MUser → Option MUser × List MUser
  | [] => (none, [])
  | u :: rest =>
    if u.id = id then (some u, rest)
    else
      let p := removeFirstById id rest
      (p.1, u :: p.2)

/-- The search/removal phase of `_update_friend` (wss.py lines 106-119):
scan `onlineFriends` first; only when no record was found there, scan
`offlineFriends`.  Returns the old record and the two updated lists. -/
def removePhase (id : Str) (r : Roster) : Option MUser × List MUser × List MUser :=
  let so := removeFirstById id r.online
  match so.1 with
  | some u => (some u, so.2, r.offline)
  | none =>
    let sf := removeFirstById id r.offline
    (sf.1, r.online, sf.2)

/-- The insertion phase of `_update_friend` (wss.py lines 121-125): a new
user whose state is `offline` is appended to the offline list, any other
new user to the online list; passing no user (the `friend-delete` path)
appends nothing.  The comparison on line 122 is `newUser.state is
State.Offline` — object identity — modelled here as value equality on the
state string, the comparison's evident intent; `applyNewIs` below models
the identity semantics, under which the offline branch is unreachable
for JSON-materialized users.  The properties proved over this version
(the roster invariant, the remove path, the active-partition frame) do
not depend on which of the two lists the append targets. -/
def applyNew (newUser : Option MUser) (onl ofl : List MUser) :
    List MUser × List MUser :=
  match newUser with
  | none => (onl, ofl)
  | some u => if u.state = stateOffline then (onl, ofl ++ [u]) else (onl ++ [u], ofl)

/-- `WSSClient._update_friend` (wss.py lines 102-128): removal phase, then
insertion phase, then the flattened `friends` list is recomputed as
`offlineFriends + onlineFriends` (line 127); the old record is returned. -/
def update_friend (newUser : Option MUser) (id : Str) (r : Roster) :
    Roster × Option MUser :=
  let rp := removePhase id r
  let ins := applyNew newUser rp.2.1 rp.2.2
  ({ online := ins.1, active := r.active, offline := ins.2,
     friends := ins.2 ++ ins.1 }, rp.1)

/-- A roster update as issued by the `_ws_friend_*` handlers: every upsert
passes a user record together with that record's own id
(`self._update_friend(user, user.id)`), and `friend-delete` passes `None`
with a bare id (wss.py line 169). -/
inductive RosterEvent where
  | upsert : MUser → RosterEvent
  | remove : Str → RosterEvent

/-- Apply one roster event through `_update_friend`, keeping the state. -/
def applyEvent (r : Roster) : RosterEvent → Roster
  | .upsert u => (update_friend (some u) u.id r).1
  | .remove id => (update_friend none id r).1

/-- Apply a sequence of roster events in order. -/
def applyEvents (r : Roster) (es : List RosterEvent) : Roster :=
  es.foldl applyEvent r

/-- The friend lists as `CurrentUser.__init__` creates them (objects.py
lines 188-191): all four lists empty. -/
def initRoster : Roster := { online := [], active := [], offline := [], friends := [] }

/-- The roster reached from the initial empty lists by a sequence of
`_update_friend` calls. -/
def rosterAfter (es : List RosterEvent) : Roster := applyEvents initRoster es

/-- The invariant maintained by `_update_friend` from the empty roster:
no duplicate ids inside or across the online/offline lists, the active
list never touched (hence still empty), and `friends` equal to
`offlineFriends + onlineFriends`. -/
def RosterInv (r : Roster) : Prop :=
  (ids r.online).Nodup ∧ (ids r.offline).Nodup ∧
    (∀ a, a ∈ ids r.online → a ∉ ids r.offline) ∧
    r.active = [] ∧ r.friends = r.offline ++ r.online

/-- `WSSClient._ws_friend_delete` (wss.py lines 168-170): routes the bare
user id through `_update_friend` with `None` as the new user; the returned
old record is handed to the `on_friend_delete` hook. -/
def ws_friend_delete (r : Roster) (userId : Str) : Roster × Option MUser :=
  update_friend none userId r

/-- A raw JSON value as handed to `_assign`.  (Container values play no
role in the checked properties; nested and array-of-nested construction is
abstracted by the function parameters of `assignRun`.) -/
inductive PyVal where
  | null : PyVal
  | str : Str → PyVal
  | num : Int → PyVal
  | bool : Bool → PyVal
deriving DecidableEq

/-- An exception raised by the materialization layer:
`vrcpy.errors.IntegrityError` with its message. -/
inductive PyErr where
  | integrityError : Str → PyErr
deriving DecidableEq

/-- The state of a `BaseObject` at the moment `_assign` is called: the
schema declarations made by `__init__` (objects.py lines 16-26) and the
object's attribute dictionary.  `attrs` holds the attributes the
constructor has already set (its defaults); `dictAttr` is `_dict`. -/
structure BaseObj where
  objType : Str
  restrictedNames : List Str
  typesKeys : List Str
  arrayTypesKeys : List Str
  needsDecoding : List Str
  attrs : List (Str × PyVal)
  dictAttr : List (Str × PyVal)
deriving DecidableEq

/-- `BaseObject._restricted_names` as set by `BaseObject.__init__`
(objects.py lines 16-23). -/
def baseRestrictedNames : List Str :=
  ["_restricted_names".toList, "_types".toList, "_array_types".toList,
   "_needs_decoding".toList, "_dict".toList, "client".toList]

/-- `BaseObject._objectIntegrity` (objects.py lines 49-52): walk the raw
keys in order and raise `IntegrityError` on the first key found in
`_restricted_names`. -/
def objectIntegrity (objType : Str) (restricted : List Str) :
    List (Str × PyVal) → Except PyErr Unit
  | [] => .ok ()
  | (k, _) :: rest =>
    if k ∈ restricted then
      .error (.integrityError (objType ++ " object has key ".toList ++ k ++
        " found in _restricted_names. VRCpy needs an adjustment.".toList))
    else objectIntegrity objType restricted rest

/-- Python `setattr` on the attribute dictionary: overwrite the existing
binding for the key or append a new one. -/
def setAttr : List (Str × PyVal) → Str → PyVal → List (Str × PyVal)
  | [], k, v => [(k, v)]
  | (k', v') :: rest, k, v =>
    if k' = k then (k, v) :: rest else (k', v') :: setAttr rest k v

/-- The per-key value transformation of the `_assign` loop (objects.py
lines 37-45): decode first when the key is in `_needs_decoding`, then
construct a typed value when the key is in `_types` or `_array_types`,
otherwise keep the raw value.  The constructors applied by the source
(`self._types[key](self.client, val)` and the element-wise list
comprehension) are abstracted by `typed` and `typedArr`; JSON decoding by
`decodeStr`. -/
def assignVal (typed typedArr : Str → PyVal → PyVal) (decodeStr : PyVal → PyVal)
    (o : BaseObj) (k : Str) (v : PyVal) : PyVal :=
  let v1 := if k ∈ o.needsDecoding then decodeStr v else v
  if k ∈ o.typesKeys then typed k v1
  else if k ∈ o.arrayTypesKeys then typedArr k v1
  else v1

/-- `BaseObject._assign` (objects.py lines 33-47) as a heap-state function:
the integrity check runs before the assignment loop, so when it raises the
object is returned in exactly the state it had at the call (first
component: the raised exception, if any).  On success all raw keys are
assigned in order and `_dict` is set to the raw map. -/
def assignRun (typed typedArr : Str → PyVal → PyVal) (decodeStr : PyVal → PyVal)
    (o : BaseObj) (raw : List (Str × PyVal)) : Option PyErr × BaseObj :=
  match objectIntegrity o.objType o.restrictedNames raw with
  | .error e => (some e, o)
  | .ok _ =>
    let attrs := raw.foldl
      (fun acc kv => setAttr acc kv.1 (assignVal typed typedArr decodeStr o kv.1 kv.2)) o.attrs
    (none, { o with attrs := attrs, dictAttr := raw })

/-- The push-channel client state the close/disconnect paths touch:
`self.ws` (a handle, or `None`) and `self.reconnect` (wss.py lines 14-17). -/
structure WSSState where
  ws : Option Nat
  reconnect : Bool
deriving DecidableEq

/-- Observable steps taken by the close handler, in order: clearing the
handle, invoking `on_disconnect`, sleeping the fixed backoff, calling
`connect()`. -/
inductive CloseAct where
  | clearHandle : CloseAct
  | hookDisconnect : CloseAct
  | sleep : Nat → CloseAct
  | connectCall : CloseAct
deriving DecidableEq

/-- `WSSClient.connect` (wss.py lines 39-55), reduced to the state it
manipulates: raises `WebSocketOpenedError` when a handle already exists,
otherwise installs a fresh handle (the spawned socket thread is abstracted
into the `connectCall` action). -/
def connect (st : WSSState) (newHandle : Nat) :
    Except Str (WSSState × List CloseAct) :=
  if st.ws.isSome then .error "There is already a websocket open!".toList
  else .ok ({ st with ws := some newHandle }, [CloseAct.connectCall])

/-- `WSSClient._ws_close` (wss.py lines 89-97): clear the handle, invoke
`on_disconnect`, and when `self.reconnect` is set sleep 2 seconds and call
`connect()` once.  (The unreachable error arm covers `connect()` raising,
which cannot happen right after the handle was cleared.) -/
def ws_close (st : WSSState) (newHandle : Nat) : WSSState × List CloseAct :=
  let st1 : WSSState := { st with ws := none }
  if st1.reconnect then
    match connect st1 newHandle with
    | .ok (st2, acts) =>
      (st2, [CloseAct.clearHandle, CloseAct.hookDisconnect, CloseAct.sleep 2] ++ acts)
    | .error _ =>
      (st1, [CloseAct.clearHandle, CloseAct.hookDisconnect, CloseAct.sleep 2])
  else (st1, [CloseAct.clearHandle, CloseAct.hookDisconnect])

/-- `WSSClient.disconnect` (wss.py lines 57-62): returns immediately when
no handle exists; otherwise clears `self.reconnect` and calls
`self.ws.close()` (second component: whether `close()` was called). -/
def disconnect (st : WSSState) : WSSState × Bool :=
  match st.ws with
  | none => (st, false)
  | some _ => ({ st with reconnect := false }, true)

/-- The exception class names defined in `vrcpy/errors.py` (the whole
file, lines 1-88). -/
def errorsDefinedNames : List String :=
  ["GeneralError", "IncorrectLoginError", "NotAuthenticated",
   "MissingCredentials", "RequiresTwoFactorAuthError", "InvalidTwoFactorAuth",
   "AlreadyLoggedInError", "IntegrityError", "OutOfDateError", "NotFoundError",
   "NotFriendsError", "AlreadyFriendsError", "WebSocketError",
   "WebSocketOpenedError", "RateLimitError", "InvalidResponse",
   "InvalidResponseContent", "InvalidResponseFormat"]

/-- The names `wss.py` line 2 imports from `vrcpy.errors`. -/
def wssErrorsImports : List String :=
  ["WebSocketError", "WebSocketOpenedError", "IntegretyError"]

/-- Whether the `from vrcpy.errors import ...` statement of wss.py line 2
can succeed: every imported name must be defined in `vrcpy/errors.py`. -/
def wssImportSucceeds : Bool :=
  wssErrorsImports.all (fun n => errorsDefinedNames.contains n)

/-- The exception class `BaseObject._objectIntegrity` raises when binding
a world payload fails (objects.py line 52). -/
def bindRaisedName : String := "IntegrityError"

/-- The exception class the `except` clause of `_ws_friend_location`
names (wss.py line 149). -/
def wssCaughtName : String := "IntegretyError"

/-- What `_ws_friend_location` did besides invoking its hook. -/
structure FLocEffects where
  usedFallbackFetch : Bool
  rosterUpdated : Bool
deriving DecidableEq

/-- `WSSClient._ws_friend_location` (wss.py lines 140-156), abstracted to
its control flow around the embedded world payload: a `private` location
returns before any roster update; otherwise a failed world binding is
re-raised unless its class name matches the one named by the `except`
clause, in which case `fetch_world` is used as fallback and the roster
update still runs. -/
def ws_friend_location (isPrivate : Bool) (bindWorldFailure : Option String) :
    Except String FLocEffects :=
  if isPrivate then .ok { usedFallbackFetch := false, rosterUpdated := false }
  else
    match bindWorldFailure with
    | none => .ok { usedFallbackFetch := false, rosterUpdated := true }
    | some cls =>
      if cls = wssCaughtName then .ok { usedFallbackFetch := true, rosterUpdated := true }
      else .error cls

/-- A Python string reference as the roster code observes it: the
character value together with whether the reference is the interned
constant `types.State.Offline` itself.  wss.py line 122 compares with
`is` (object identity, not value equality); a string materialized by
`json.loads` is a fresh object, never that interned literal, so for
every user the `_ws_friend_*` handlers build the flag is false even when
the value is `offline`. -/
structure PyStrRef where
  val : Str
  isOfflineConst : Bool
deriving DecidableEq

/-- A friend record carrying the identity-aware state reference. -/
structure MUserIs where
  id : Str
  state : PyStrRef
deriving DecidableEq

/-- The friend lists of `CurrentUser`, over identity-aware records. -/
structure RosterIs where
  online : List MUserIs
  active : List MUserIs
  offline : List MUserIs
  friends : List MUserIs
deriving DecidableEq

/-- `removeFirstById` over identity-aware records (wss.py lines 108-119;
the id comparison on lines 109 and 116 is `==`, value equality). -/
def removeFirstByIdIs (id : Str) : List MUserIs → Option MUserIs × List MUserIs
  | [] => (none, [])
  | u :: rest =>
    if u.id = id then (some u, rest)
    else
      let p := removeFirstByIdIs id rest
      (p.1, u :: p.2)

/-- `removePhase` over identity-aware records (wss.py lines 106-119). -/
def removePhaseIs (id : Str) (r : RosterIs) :
    Option MUserIs × List MUserIs × List MUserIs :=
  let so := removeFirstByIdIs id r.online
  match so.1 with
  | some u => (some u, so.2, r.offline)
  | none =>
    let sf := removeFirstByIdIs id r.offline
    (sf.1, r.online, sf.2)

/-- The insertion phase with the source's actual comparison: wss.py line
122 tests `newUser.state is State.Offline`, object identity with the
interned constant, so the offline branch fires only for a reference that
is that very constant — never for a JSON-materialized state string of
equal value. -/
def applyNewIs (newUser : Option MUserIs) (onl ofl : List MUserIs) :
    List MUserIs × List MUserIs :=
  match newUser with
  | none => (onl, ofl)
  | some u =>
    if u.state.isOfflineConst then (onl, ofl ++ [u]) else (onl ++ [u], ofl)

/-- `WSSClient._update_friend` (wss.py lines 102-128) over identity-aware
records, with the line-122 comparison taken as the object identity it is. -/
def update_friend_is (newUser : Option MUserIs) (id : Str) (r : RosterIs) :
    RosterIs × Option MUserIs :=
  let rp := removePhaseIs id r
  let ins := applyNewIs newUser rp.2.1 rp.2.2
  ({ online := ins.1, active := r.active, offline := ins.2,
     friends := ins.2 ++ ins.1 }, rp.1)

/-- The empty lists of `CurrentUser.__init__`, identity-aware. -/
def initRosterIs : RosterIs :=
  { online := [], active := [], offline := [], friends := [] }

/-- The offline-state copy of `usr_1` exactly as the handlers build it:
the state string comes out of `json.loads`, so it is not the interned
`State.Offline` object. -/
def uOffJson : MUserIs :=
  { id := "usr_1".toList,
    state := { val := "offline".toList, isOfflineConst := false } }

/-- The online-state copy of `usr_1`, JSON-materialized likewise. -/
def uOnJson : MUserIs :=
  { id := "usr_1".toList,
    state := { val := "online".toList, isOfflineConst := false } }

/-- An online copy of user `usr_1`, used to instantiate theorems. -/
def uOnW : MUser := { id := "usr_1".toList, state := stateOnline }

/-- A concrete event sequence used to instantiate the roster invariant. -/
def demoEvents : List RosterEvent :=
  [RosterEvent.upsert { id := "usr_a".toList, state := stateOnline },
   RosterEvent.upsert { id := "usr_b".toList, state := stateOffline },
   RosterEvent.upsert { id := "usr_a".toList, state := stateOffline },
   RosterEvent.remove "usr_c".toList]

/-- A concrete well-formed roster used to instantiate theorems. -/
def sampleRosterA : Roster :=
  { online := [{ id := "usr_on".toList, state := stateOnline }],
    active := [],
    offline := [{ id := "usr_off".toList, state := stateOffline }],
    friends := [{ id := "usr_off".toList, state := stateOffline },
                { id := "usr_on".toList, state := stateOnline }] }

/-- A concrete object state (a `User` whose constructor defaults are set)
used to instantiate the binding theorems. -/
def sampleObj : BaseObj :=
  { objType := "User".toList, restrictedNames := baseRestrictedNames,
    typesKeys := ["location".toList, "instanceId".toList],
    arrayTypesKeys := [], needsDecoding := [],
    attrs := [("id".toList, PyVal.null), ("displayName".toList, PyVal.null)],
    dictAttr := [] }

/-- A raw payload containing the reserved key `client`. -/
def sampleRaw : List (Str × PyVal) :=
  [("displayName".toList, PyVal.str "Bob".toList), ("client".toList, PyVal.null)]

@[simp] theorem ids_nil : ids [] = [] := rfl

@[simp] theorem ids_cons (u : MUser) (l : List MUser) :
    ids (u :: l) = u.id :: ids l := rfl

@[simp] theorem ids_append (l1 l2 : List MUser) :
    ids (l1 ++ l2) = ids l1 ++ ids l2 := List.map_append _ _ _

theorem pySplit_length (sep : Char) (s : Str) :
    (pySplit sep s).length = pyCount sep s + 1 := by
  induction s with
  | nil => rfl
  | cons c rest ih =>
    by_cases h : c = sep
    · simp [pySplit, pyCount, h, ih]
      omega
    · simp only [pySplit, pyCount, if_neg h]
      cases hr : pySplit sep rest with
      | nil => rw [hr] at ih; simp at ih
      | cons a t => rw [hr] at ih; simpa using ih

theorem pySplit_no_sep (sep : Char) (s : Str) (h : sep ∉ s) :
    pySplit sep s = [s] := by
  induction s with
  | nil => rfl
  | cons c rest ih =>
    rw [List.mem_cons, not_or] at h
    obtain ⟨h1, h2⟩ := h
    have hc : ¬(c = sep) := fun he => h1 he.symm
    simp [pySplit, hc, ih h2]

theorem pyCount_pos_iff (sep : Char) (s : Str) :
    0 < pyCount sep s ↔ sep ∈ s := by
  induction s with
  | nil => simp [pyCount]
  | cons c rest ih =>
    by_cases h : c = sep
    · simp [pyCount, h]
    · have : ¬(sep = c) := fun he => h he.symm
      simp [pyCount, h, this, ih]

theorem removeFirstById_not_mem (id : Str) (l : List MUser) (h : id ∉ ids l) :
    removeFirstById id l = (none, l) := by
  induction l with
  | nil => rfl
  | cons u rest ih =>
    rw [ids_cons, List.mem_cons, not_or] at h
    obtain ⟨h1, h2⟩ := h
    have hne : ¬(u.id = id) := fun he => h1 he.symm
    simp [removeFirstById, hne, ih h2]

theorem mem_ids_of_found (id : Str) (l : List MUser) (u : MUser)
    (h : (removeFirstById id l).1 = some u) : id ∈ ids l := by
  by_contra hmem
  rw [removeFirstById_not_mem id l hmem] at h
  simp at h

theorem not_mem_of_none (id : Str) (l : List MUser)
    (h : (removeFirstById id l).1 = none) : id ∉ ids l := by
  induction l with
  | nil => simp
  | cons u rest ih =>
    by_cases hc : u.id = id
    · simp [removeFirstById, hc] at h
    · simp only [removeFirstById, if_neg hc] at h
      rw [ids_cons, List.mem_cons, not_or]
      exact ⟨fun he => hc he.symm, ih h⟩

theorem removeFirstById_subset (id : Str) (l : List MUser) :
    ∀ a, a ∈ ids (removeFirstById id l).2 → a ∈ ids l := by
  induction l with
  | nil => intro a ha; simp [removeFirstById] at ha
  | cons u rest ih =>
    intro a ha
    by_cases hc : u.id = id
    · simp only [removeFirstById, if_pos hc] at ha
      exact List.mem_cons_of_mem _ ha
    · simp only [removeFirstById, if_neg hc, ids_cons, List.mem_cons] at ha
      rcases ha with ha | ha
      · exact ha ▸ List.mem_cons_self _ _
      · exact List.mem_cons_of_mem _ (ih a ha)

theorem removeFirstById_nodup (id : Str) (l : List MUser)
    (h : (ids l).Nodup) : (ids (removeFirstById id l).2).Nodup := by
  induction l with
  | nil => simp [removeFirstById]
  | cons u rest ih =>
    rw [ids_cons, List.nodup_cons] at h
    obtain ⟨hu, hrest⟩ := h
    by_cases hc : u.id = id
    · simpa [removeFirstById, hc] using hrest
    · have hnm : u.id ∉ ids (removeFirstById id rest).2 :=
        fun hm => hu (removeFirstById_subset id rest _ hm)
      simp only [removeFirstById, if_neg hc, ids_cons, List.nodup_cons]
      exact ⟨hnm, ih hrest⟩

theorem removeFirstById_not_mem_snd (id : Str) (l : List MUser)
    (h : (ids l).Nodup) : id ∉ ids (removeFirstById id l).2 := by
  induction l with
  | nil => simp [removeFirstById]
  | cons u rest ih =>
    rw [ids_cons, List.nodup_cons] at h
    obtain ⟨hu, hrest⟩ := h
    by_cases hc : u.id = id
    · simpa [removeFirstById, hc] using (hc ▸ hu)
    · simp only [removeFirstById, if_neg hc, ids_cons, List.mem_cons, not_or]
      exact ⟨fun he => hc he.symm, ih hrest⟩

theorem removePhase_spec (id : Str) (r : Roster)
    (hOn : (ids r.online).Nodup) (hOff : (ids r.offline).Nodup)
    (hDisj : ∀ a, a ∈ ids r.online → a ∉ ids r.offline) :
    (ids (removePhase id r).2.1).Nodup ∧ (ids (removePhase id r).2.2).Nodup ∧
      (∀ a, a ∈ ids (removePhase id r).2.1 → a ∉ ids (removePhase id r).2.2) ∧
      id ∉ ids (removePhase id r).2.1 ∧ id ∉ ids (removePhase id r).2.2 := by
  cases hf : (removeFirstById id r.online).1 with
  | some u =>
    simp only [removePhase, hf]
    refine ⟨removeFirstById_nodup id r.online hOn, hOff, ?_,
      removeFirstById_not_mem_snd id r.online hOn, ?_⟩
    · intro a ha
      exact hDisj a (removeFirstById_subset id r.online a ha)
    · exact hDisj id (mem_ids_of_found id r.online u hf)
  | none =>
    simp only [removePhase, hf]
    refine ⟨hOn, removeFirstById_nodup id r.offline hOff, ?_,
      not_mem_of_none id r.online hf,
      removeFirstById_not_mem_snd id r.offline hOff⟩
    intro a ha hm
    exact hDisj a ha (removeFirstById_subset id r.offline a hm)

theorem applyNew_spec (nu : Option MUser) (id : Str) (onl ofl : List MUser)
    (hid : ∀ u, nu = some u → u.id = id)
    (h1 : (ids onl).Nodup) (h2 : (ids ofl).Nodup)
    (h3 : ∀ a, a ∈ ids onl → a ∉ ids ofl)
    (h4 : id ∉ ids onl) (h5 : id ∉ ids ofl) :
    (ids (applyNew nu onl ofl).1).Nodup ∧ (ids (applyNew nu onl ofl).2).Nodup ∧
      ∀ a, a ∈ ids (applyNew nu onl ofl).1 → a ∉ ids (applyNew nu onl ofl).2 := by
  cases nu with
  | none => exact ⟨h1, h2, h3⟩
  | some u =>
    have hu : u.id = id := hid u rfl
    by_cases hst : u.state = stateOffline
    · simp only [applyNew, if_pos hst]

      refine ⟨h1, ?_, ?_⟩
      · rw [ids_append, List.nodup_append]
        refine ⟨h2, by simp, ?_⟩
        intro a ha hm
        simp [hu] at hm
        exact h5 (hm ▸ ha)
      · intro a ha hm
        rw [ids_append, List.mem_append] at hm
        rcases hm with hm | hm
        · exact h3 a ha hm
        · simp [hu] at hm
          exact h4 (hm ▸ ha)
    · simp only [applyNew, if_neg hst]
      refine ⟨?_, h2, ?_⟩
      · rw [ids_append, List.nodup_append]
        refine ⟨h1, by simp, ?_⟩
        intro a ha hm
        simp [hu] at hm
        exact h4 (hm ▸ ha)
      · intro a ha hm
        rw [ids_append, List.mem_append] at ha
        rcases ha with ha | ha
        · exact h3 a ha hm
        · simp [hu] at ha
          exact h5 (ha ▸ hm)

theorem update_friend_inv (nu : Option MUser) (id : Str) (r : Roster)
    (hid : ∀ u, nu = some u → u.id = id) (h : RosterInv r) :
    RosterInv (update_friend nu id r).1 := by
  obtain ⟨hOn, hOff, hDisj, hAct, _⟩ := h
  obtain ⟨p1, p2, p3, p4, p5⟩ := removePhase_spec id r hOn hOff hDisj
  obtain ⟨q1, q2, q3⟩ := applyNew_spec nu id _ _ hid p1 p2 p3 p4 p5
  exact ⟨q1, q2, q3, hAct, rfl⟩

theorem initRoster_inv : RosterInv initRoster := by
  refine ⟨?_, ?_, ?_, rfl, rfl⟩ <;> simp [initRoster]

theorem applyEvents_inv (es : List RosterEvent) (r : Roster) (h : RosterInv r) :
    RosterInv (applyEvents r es) := by
  induction es generalizing r with
  | nil => exact h
  | cons e rest ih =>
    have h1 : RosterInv (applyEvent r e) := by
      cases e with
      | upsert u =>
        exact update_friend_inv (some u) u.id r (fun v hv => by cases hv; rfl) h
      | remove id => exact update_friend_inv none id r (fun v hv => by cases hv) h
    exact ih (applyEvent r e) h1

/-- C1: for every sequence of roster updates applied via `_update_friend`
(upserts with a user object and removes with a bare id) starting from the
empty lists created by `CurrentUser.__init__`, afterward no user id
appears in more than one of the online, active and offline partitions, the
flattened friends list contains no duplicate ids, and the flattened
friends list equals the union of the three partitions with offline entries
first followed by online entries (the active partition, which
`_update_friend` never writes, stays empty). -/
theorem roster_sequence_invariant (es : List RosterEvent) :
    (∀ a, ¬(a ∈ ids (rosterAfter es).online ∧ a ∈ ids (rosterAfter es).offline)) ∧
    (∀ a, ¬(a ∈ ids (rosterAfter es).online ∧ a ∈ ids (rosterAfter es).active)) ∧
    (∀ a, ¬(a ∈ ids (rosterAfter es).offline ∧ a ∈ ids (rosterAfter es).active)) ∧
    (ids (rosterAfter es).friends).Nodup ∧
    (rosterAfter es).friends =
      (rosterAfter es).offline ++ (rosterAfter es).active ++ (rosterAfter es).online := by
  have hinv := applyEvents_inv es initRoster initRoster_inv
  rw [show applyEvents initRoster es = rosterAfter es from rfl] at hinv
  obtain ⟨hOn, hOff, hDisj, hAct, hFr⟩ := hinv
  refine ⟨?_, ?_, ?_, ?_, ?_⟩
  · rintro a ⟨h1, h2⟩
    exact hDisj a h1 h2
  · rintro a ⟨h1, h2⟩
    rw [hAct] at h2
    simp at h2
  · rintro a ⟨h1, h2⟩
    rw [hAct] at h2
    simp at h2
  · rw [hFr, ids_append, List.nodup_append]
    exact ⟨hOff, hOn, fun a ha hb => hDisj a hb ha⟩
  · rw [hFr, hAct]
    simp

/-- Witness for C1: the invariant instantiated at a concrete event
sequence containing an upsert, a state change and a removal. -/
theorem roster_sequence_invariant_witness :
    (ids (rosterAfter demoEvents).friends).Nodup ∧
    (rosterAfter demoEvents).friends =
      (rosterAfter demoEvents).offline ++ (rosterAfter demoEvents).active ++
        (rosterAfter demoEvents).online :=
  ⟨(roster_sequence_invariant demoEvents).2.2.2.1,
   (roster_sequence_invariant demoEvents).2.2.2.2⟩

/-- C6 fails on the code: wss.py line 122 compares the state to
`State.Offline` with `is`, object identity.  A JSON-materialized state
string of value `offline` is not the interned constant, so the first
upsert appends the offline-state copy of `usr_1` to `onlineFriends` and
leaves the offline partition empty; the second upsert does return that
first copy as the prior record, but it comes from the online partition —
no offline-partition copy ever exists on this data path, contradicting
the claim's (and the spec's) offline-partition routing. -/
theorem upsert_offline_then_online_is_bug :
    (update_friend_is (some uOffJson) uOffJson.id initRosterIs).1.offline = [] ∧
    (update_friend_is (some uOffJson) uOffJson.id initRosterIs).1.online = [uOffJson] ∧
    (update_friend_is (some uOnJson) uOnJson.id
        (update_friend_is (some uOffJson) uOffJson.id initRosterIs).1).2 = some uOffJson ∧
    (update_friend_is (some uOnJson) uOnJson.id
        (update_friend_is (some uOffJson) uOffJson.id initRosterIs).1).1.online = [uOnJson] ∧
    (update_friend_is (some uOnJson) uOnJson.id
        (update_friend_is (some uOffJson) uOffJson.id initRosterIs).1).1.offline = [] :=
  ⟨rfl, rfl, rfl, rfl, rfl⟩

/-- C7: a `friend-delete` event for an id present in no partition routes
through `_update_friend` with no user (`remove`, never an upsert), raises
nothing, leaves every partition unchanged (only the flattened list is
recomputed) and hands `None` to the hook. -/
theorem friend_delete_absent_id (r : Roster) (uid : Str)
    (h1 : uid ∉ ids r.online) (h2 : uid ∉ ids r.offline) :
    ws_friend_delete r uid = ({ r with friends := r.offline ++ r.online }, none) := by
  simp [ws_friend_delete, update_friend, removePhase, applyNew,
    removeFirstById_not_mem uid r.online h1, removeFirstById_not_mem uid r.offline h2]

/-- Witness for C7: a delete for the absent id `usr_gone` on a concrete
two-user roster. -/
theorem friend_delete_absent_id_witness :
    ws_friend_delete sampleRosterA "usr_gone".toList =
      ({ sampleRosterA with friends := sampleRosterA.offline ++ sampleRosterA.online },
        none) :=
  friend_delete_absent_id sampleRosterA "usr_gone".toList (by decide) (by decide)

/-- C10: `_update_friend` never writes the active-friends partition, and
the recomputed flattened friends list is exactly the offline partition
followed by the online partition — an entry held only in the active
partition never reaches it. -/
theorem update_friend_active_frame (nu : Option MUser) (id : Str) (r : Roster) :
    (update_friend nu id r).1.active = r.active ∧
    (update_friend nu id r).1.friends =
      (update_friend nu id r).1.offline ++ (update_friend nu id r).1.online ∧
    ∀ u, u ∈ (update_friend nu id r).1.friends →
      u ∈ (update_friend nu id r).1.offline ∨ u ∈ (update_friend nu id r).1.online := by
  refine ⟨rfl, rfl, ?_⟩
  intro u hu
  have hu' : u ∈ (update_friend nu id r).1.offline ++ (update_friend nu id r).1.online := hu
  rcases List.mem_append.mp hu' with h | h
  · exact Or.inl h
  · exact Or.inr h

/-- Witness for C10: the frame condition at a concrete upsert on a
concrete roster. -/
theorem update_friend_active_frame_witness :
    (update_friend (some uOnW) "usr_1".toList sampleRosterA).1.active =
      sampleRosterA.active ∧
    (update_friend (some uOnW) "usr_1".toList sampleRosterA).1.friends =
      (update_friend (some uOnW) "usr_1".toList sampleRosterA).1.offline ++
        (update_friend (some uOnW) "usr_1".toList sampleRosterA).1.online :=
  ⟨(update_friend_active_frame (some uOnW) "usr_1".toList sampleRosterA).1,
   (update_friend_active_frame (some uOnW) "usr_1".toList sampleRosterA).2.1⟩

/-- C4: the location parser satisfies the grammar's reference vectors:
the full three-segment string with world id yields every field, and a bare
instance code yields no world id, the code as name, and type public. -/
theorem location_parse_reference_vectors :
    locationParse "wrld_1:name~public(usr_1)~nonce(abc)".toList =
      .ok { worldId := some "wrld_1".toList, name := "name".toList,
            type := "public".toList, userId := some "usr_1".toList,
            nonce := some "abc".toList,
            location := "wrld_1:name~public(usr_1)~nonce(abc)".toList,
            code := "name~public(usr_1)~nonce(abc)".toList } ∧
    locationParse "instance_code".toList =
      .ok { worldId := none, name := "instance_code".toList,
            type := "public".toList, userId := none, nonce := none,
            location := "instance_code".toList,
            code := "instance_code".toList } :=
  ⟨rfl, rfl⟩

/-- Counterexample to C5: a code part with three `~` occurrences does not
fail — `Location.__init__` takes neither the two-separator nor the
one-separator branch and silently succeeds with the constructor defaults
`name = ''` and `type = 'public'`. -/
theorem location_parse_three_tildes_ok :
    locationParse "a~b~c~d".toList =
      .ok { worldId := none, name := [], type := "public".toList,
            userId := none, nonce := none,
            location := "a~b~c~d".toList, code := "a~b~c~d".toList } := rfl

/-- C5 as amended: for a code part with exactly two `~` occurrences whose
parentheses are malformed (the middle segment minus its final character
does not split on `(` into exactly two pieces, or the final segment
contains no `(`), parsing fails with a `GeneralError` whose message
carries the code string; but a code part with three or more `~`
occurrences is accepted without error, silently defaulting `name` to the
empty string and `type` to public. -/
theorem location_parse_malformed_amended :
    (∀ code n t nn : Str, ':' ∉ code → pySplit '~' code = [n, t, nn] →
      ((pySplit '(' t.dropLast).length ≠ 2 ∨ '(' ∉ nn) →
      locationParse code = .error (.generalError (genErrMsg code)) ∧
        ∃ pre post, genErrMsg code = pre ++ code ++ post) ∧
    (∀ code : Str, ':' ∉ code → 3 ≤ pyCount '~' code →
      locationParse code =
        .ok { worldId := none, name := [], type := "public".toList,
              userId := none, nonce := none, location := code, code := code }) := by
  constructor
  · intro code n t nn hcolon hsplit hbad
    have hlen := pySplit_length '~' code
    rw [hsplit] at hlen
    have hcount : pyCount '~' code = 2 := by
      simp at hlen
      omega
    have hmem : '~' ∈ code := (pyCount_pos_iff '~' code).mp (by omega)
    refine ⟨?_, "Exception occured while trying to parse location string (".toList,
      ")! Please open an issue on github!".toList, rfl⟩
    rcases hbad with hbad | hbad
    · cases hsp : pySplit '(' t.dropLast with
      | nil => simp [locationParse, locationParseCode, hcolon, hmem, hcount, hsplit, hsp]
      | cons a l =>
        cases l with
        | nil => simp [locationParse, locationParseCode, hcolon, hmem, hcount, hsplit, hsp]
        | cons b l2 =>
          cases l2 with
          | nil => exact absurd (by rw [hsp]; rfl) hbad
          | cons c3 l3 =>
            simp [locationParse, locationParseCode, hcolon, hmem, hcount, hsplit, hsp]
    · have hnn : pySplit '(' nn = [nn] := pySplit_no_sep '(' nn hbad
      cases hsp : pySplit '(' t.dropLast with
      | nil => simp [locationParse, locationParseCode, hcolon, hmem, hcount, hsplit, hsp]
      | cons a l =>
        cases l with
        | nil => simp [locationParse, locationParseCode, hcolon, hmem, hcount, hsplit, hsp]
        | cons b l2 =>
          cases l2 with
          | nil =>
            simp [locationParse, locationParseCode, hcolon, hmem, hcount, hsplit, hsp, hnn]
          | cons c3 l3 =>
            simp [locationParse, locationParseCode, hcolon, hmem, hcount, hsplit, hsp]
  · intro code hcolon h3
    have hmem : '~' ∈ code := (pyCount_pos_iff '~' code).mp (by omega)
    have h2 : ¬(pyCount '~' code = 2) := by omega
    have h1 : ¬(pyCount '~' code = 1) := by omega
    simp [locationParse, locationParseCode, hcolon, hmem, h2, h1]

/-- Witness for the amended C5: a malformed two-separator code fails with
the wrapped error carrying the code, and a three-separator code silently
parses to the defaults. -/
theorem location_parse_malformed_amended_witness :
    (locationParse "x~y~z".toList =
        .error (.generalError (genErrMsg "x~y~z".toList)) ∧
      ∃ pre post, genErrMsg "x~y~z".toList = pre ++ "x~y~z".toList ++ post) ∧
    locationParse "w~x~y~z".toList =
      .ok { worldId := none, name := [], type := "public".toList,
            userId := none, nonce := none,
            location := "w~x~y~z".toList, code := "w~x~y~z".toList } :=
  ⟨location_parse_malformed_amended.1 "x~y~z".toList "x".toList "y".toList "z".toList
      (by decide) (by decide) (Or.inl (by decide)),
   location_parse_malformed_amended.2 "w~x~y~z".toList (by decide) (by decide)⟩

theorem objectIntegrity_fails (ot : Str) (restricted : List Str)
    (raw : List (Str × PyVal)) (h : ∃ kv ∈ raw, kv.1 ∈ restricted) :
    ∃ msg, objectIntegrity ot restricted raw = .error (.integrityError msg) := by
  induction raw with
  | nil =>
    obtain ⟨kv, hm, _⟩ := h
    simp at hm
  | cons p rest ih =>
    obtain ⟨k, v⟩ := p
    by_cases hk : k ∈ restricted
    · exact ⟨ot ++ " object has key ".toList ++ k ++
        " found in _restricted_names. VRCpy needs an adjustment.".toList,
        by simp [objectIntegrity, hk]⟩
    · obtain ⟨kv, hm, hr⟩ := h
      rcases List.mem_cons.mp hm with rfl | hm2
      · exact absurd hr hk
      · obtain ⟨msg, hmsg⟩ := ih ⟨kv, hm2, hr⟩
        exact ⟨msg, by simpa [objectIntegrity, hk] using hmsg⟩

/-- C2: when the raw map contains any key from the object's
restricted-name set, `_assign` raises `IntegrityError` (the integrity
check runs before the assignment loop) and the object is returned exactly
as it was — no field from the raw map is assigned, so no partial object is
produced. -/
theorem assign_reserved_key_rejected (typed typedArr : Str → PyVal → PyVal)
    (decodeStr : PyVal → PyVal) (o : BaseObj) (raw : List (Str × PyVal))
    (h : ∃ kv ∈ raw, kv.1 ∈ o.restrictedNames) :
    (∃ msg, (assignRun typed typedArr decodeStr o raw).1 =
        some (.integrityError msg)) ∧
      (assignRun typed typedArr decodeStr o raw).2 = o := by
  obtain ⟨msg, hmsg⟩ := objectIntegrity_fails o.objType o.restrictedNames raw h
  exact ⟨⟨msg, by simp [assignRun, hmsg]⟩, by simp [assignRun, hmsg]⟩

/-- Witness for C2: binding a payload containing the reserved key
`client` onto a concrete user object fails and leaves the object intact. -/
theorem assign_reserved_key_rejected_witness :
    (∃ msg, (assignRun (fun _ v => v) (fun _ v => v) (fun v => v)
        sampleObj sampleRaw).1 = some (.integrityError msg)) ∧
      (assignRun (fun _ v => v) (fun _ v => v) (fun v => v)
        sampleObj sampleRaw).2 = sampleObj :=
  assign_reserved_key_rejected _ _ _ sampleObj sampleRaw
    ⟨("client".toList, PyVal.null), by decide, by decide⟩

/-- C3 fails on the code: `wss.py` line 2 imports the misspelled name
`IntegretyError` from `vrcpy.errors`, which defines no such class (so the
module cannot even be imported), and even granting the name a binding the
`except` clause of `_ws_friend_location` names a class different from the
`IntegrityError` the world binding actually raises — the binding error is
surfaced and neither the fallback `fetch_world` call nor the roster update
happens. -/
theorem ws_friend_location_integrety_bug :
    wssImportSucceeds = false ∧
    "IntegretyError" ∉ errorsDefinedNames ∧
    bindRaisedName ≠ wssCaughtName ∧
    ws_friend_location false (some bindRaisedName) = .error bindRaisedName :=
  ⟨by decide, by decide, by decide,
   by simp [ws_friend_location, bindRaisedName, wssCaughtName]⟩

/-- C8: on every close event the channel handle is cleared and the
disconnect hook invoked first; with reconnection enabled the handler then
sleeps the fixed 2-second backoff and makes exactly one `connect()`
attempt; with it disabled it makes none and leaves the handle cleared. -/
theorem ws_close_spec (st : WSSState) (nh : Nat) :
    (ws_close st nh).2.take 2 = [CloseAct.clearHandle, CloseAct.hookDisconnect] ∧
    (ws_close st nh).2.count CloseAct.connectCall =
      (if st.reconnect then 1 else 0) ∧
    (if st.reconnect then
      (ws_close st nh).2 =
        [CloseAct.clearHandle, CloseAct.hookDisconnect, CloseAct.sleep 2,
         CloseAct.connectCall]
     else
      (ws_close st nh).2 = [CloseAct.clearHandle, CloseAct.hookDisconnect] ∧
        (ws_close st nh).1.ws = none) := by
  cases hr : st.reconnect <;>
    simp [ws_close, connect, hr, List.count_cons]

/-- Witness for C8: the close handler at a concrete connected state with
reconnection enabled makes exactly one connect attempt. -/
theorem ws_close_spec_witness :
    (ws_close { ws := some 5, reconnect := true } 7).2.count CloseAct.connectCall = 1 := by
  have h := (ws_close_spec { ws := some 5, reconnect := true } 7).2.1
  simpa using h

/-- Counterexample to C9: calling `disconnect()` while no channel is open
returns early (wss.py lines 58-59) and leaves the reconnect flag set, so
not every call disables future reconnection. -/
theorem disconnect_no_channel_keeps_reconnect :
    (disconnect { ws := none, reconnect := true }).1.reconnect = true := rfl

/-- C9 as amended: `disconnect()` disables future reconnection and closes
the channel exactly when a channel is open; when no channel is open it is
a no-op that raises nothing and changes no state — in particular the
reconnect flag is left unchanged rather than cleared.  `disconnect` itself
never touches the handle (the close callback clears it). -/
theorem disconnect_amended (st : WSSState) :
    ((disconnect st).1.reconnect = if st.ws.isSome then false else st.reconnect) ∧
    ((disconnect st).2 = st.ws.isSome) ∧
    ((disconnect st).1.ws = st.ws) := by
  obtain ⟨ws, rec⟩ := st
  cases ws <;> simp [disconnect]

/-- Witness for the amended C9: at a concrete open-channel state the flag
is cleared and close is called. -/
theorem disconnect_amended_witness :
    (disconnect { ws := some 3, reconnect := true }).1.reconnect = false ∧
    (disconnect { ws := some 3, reconnect := true }).2 = true := by
  have h := disconnect_amended { ws := some 3, reconnect := true }
  exact ⟨by simpa using h.1, by simpa using h.2.1⟩
